import Mathlib

/-!
Verification development for the seasonality cron-job repository.

The repository has two ETL pipelines:
* `databento_data.py` — fetches daily OHLCV bars from a vendor API,
  normalizes records (polymorphic timestamps, symbol mapping, price
  filtering) and upserts them into `continuous_prices`;
* `mrci_data.py` — scrapes a legacy HTML site day by day, parses a fixed
  table layout, and inserts per-contract rows with a forward-only
  checkpoint.

Calendar dates are embedded as day numbers (days since 1970-01-01, an
isomorphic representation of Python `date` objects); `daysFromCivil` is
the standard civil-calendar-to-day-number conversion used to express
concrete dates.
-/

namespace Seasonality

/-- Day number (days since the Unix epoch) of the civil date `y-m-d`.
Standard civil-from-days companion (Hinnant's algorithm); used to embed
Python `date` objects as integers. -/
def daysFromCivil (y m d : Int) : Int :=
  let yAdj := if m ≤ 2 then y - 1 else y
  let era := Int.fdiv yAdj 400
  let yoe := yAdj - era * 400
  let mp := Int.emod (m + 9) 12
  let doy := (153 * mp + 2) / 5 + d - 1
  let doe := yoe * 365 + yoe / 4 - yoe / 100 + doy
  era * 146097 + doe - 719468

/-- The list `month_codes` from `databento_data.py` (`get_active_contracts`). -/
def month_codes : List String := ["F", "G", "H", "J", "K", "M", "N", "Q", "U", "V", "X", "Z"]

/-- Python `f"{n:02d}"` for `n < 100`: zero-padded two-digit rendering. -/
def pad2 (n : Nat) : String := if n < 10 then "0" ++ toString n else toString n

/-- The function `get_active_contracts(root, trade_date)` from `databento_data.py`:
the reference date enters only through its `month` (1..12) and `year`. -/
def get_active_contracts (root : String) (year month : Nat) : List String :=
  let current_month := month - 1
  let current_year := year % 100
  (List.range 4).map (fun i =>
    let month_idx := (current_month + i) % 12
    let y := if current_month + i < 12 then current_year else (current_year + 1) % 100
    root ++ month_codes.getD month_idx "" ++ pad2 y)

/-! ## Databento pipeline: records and timestamp extraction -/

/-- Parsed form of an ISO-8601 timestamp string as accepted by
`datetime.fromisoformat` after `replace('Z', '+00:00')`: the wall-clock
components written in the string (`year`/`month`/`day` and the time of
day `tod` in seconds) plus the written UTC `offset` in seconds
(`0` for a trailing `Z`). -/
structure IsoTs where
  year : Int
  month : Int
  day : Int
  tod : Int
  offset : Int
deriving Repr, DecidableEq

/-- The three `ts_event` representations handled by the normalization
loops of `insert_futures_prices` and `insert_stock_prices`: a
date-bearing object (embedded as its day number), an ISO-8601 string
(embedded in parsed form), or a nanosecond Unix epoch integer. -/
inductive TsEvent where
  | dateObj (day : Int)
  | isoStr (ts : IsoTs)
  | intNs (ns : Int)
deriving Repr, DecidableEq

/-- Trade-date extraction from `ts_event` (day number of the resulting
Python `date`).  `tz` is the process-local UTC offset in seconds:
`datetime.fromtimestamp(ns / 1e9)` interprets the epoch in the local
timezone, while `.date()` of a `fromisoformat` result is the calendar
date written in the string (the offset is parsed but not applied). -/
def tsEventDate (tz : Int) : TsEvent → Int
  | .dateObj d => d
  | .isoStr ts => daysFromCivil ts.year ts.month ts.day
  | .intNs ns => Int.fdiv (Int.fdiv ns 1000000000 + tz) 86400

/-- A raw vendor futures record (the fields consulted by
`insert_futures_prices`): `rec.get('root', '')`, `rec.get('ts_event')`,
and the numeric fields, `none` standing for an absent key (defaulted to
`0` by `rec.get(..., 0)`). -/
structure FutRec where
  root : String
  ts_event : TsEvent
  openPx : Option ℚ
  highPx : Option ℚ
  lowPx : Option ℚ
  closePx : Option ℚ
  volume : Option Int
deriving Repr, DecidableEq

/-- A raw vendor stock record (the fields consulted by
`insert_stock_prices`). -/
structure StockRec where
  symbol : String
  ts_event : TsEvent
  openPx : Option ℚ
  highPx : Option ℚ
  lowPx : Option ℚ
  closePx : Option ℚ
  volume : Option Int
deriving Repr, DecidableEq

/-- One row of the `continuous_prices` table — exactly the 6-tuple
`(trade_date, symbol, open, high, low, close)` appended to `rows` by
both normalizers. -/
structure ContRow where
  trade_date : Int
  symbol : String
  openPx : ℚ
  highPx : ℚ
  lowPx : ℚ
  closePx : ℚ
deriving Repr, DecidableEq

/-- The constant `STOCK_PREFIX` in the source: the fixed literal tag prepended to
stock tickers. -/
def stockTag : String := "STK"

/-- One iteration of the normalization loop of `insert_futures_prices`:
`some row` when the record contributes a row, `none` when the loop
`continue`s (unmapped root — note `if not db_symbol` also drops a root
mapped to the empty string — or non-positive close). -/
def futuresRow (root_to_db : List (String × String)) (tz : Int) (rec : FutRec) :
    Option ContRow :=
  match List.lookup rec.root root_to_db with
  | none => none
  | some db_symbol =>
    if db_symbol = "" then none
    else
      let trade_date := tsEventDate tz rec.ts_event
      let open_px := rec.openPx.getD 0
      let high_px := rec.highPx.getD 0
      let low_px := rec.lowPx.getD 0
      let close_px := rec.closePx.getD 0
      if close_px ≤ 0 then none
      else some ⟨trade_date, db_symbol, open_px, high_px, low_px, close_px⟩

/-- The batch of canonical rows built by `insert_futures_prices` from a
record list. -/
def futuresRows (root_to_db : List (String × String)) (tz : Int)
    (records : List FutRec) : List ContRow :=
  records.filterMap (futuresRow root_to_db tz)

/-- One iteration of the normalization loop of `insert_stock_prices`:
the ticker is required non-empty (`if not raw_symbol: continue`) and is
prefixed with the fixed `STK` tag. -/
def stockRow (tz : Int) (rec : StockRec) : Option ContRow :=
  if rec.symbol = "" then none
  else
    let db_symbol := stockTag ++ rec.symbol
    let trade_date := tsEventDate tz rec.ts_event
    let open_px := rec.openPx.getD 0
    let high_px := rec.highPx.getD 0
    let low_px := rec.lowPx.getD 0
    let close_px := rec.closePx.getD 0
    if close_px ≤ 0 then none
    else some ⟨trade_date, db_symbol, open_px, high_px, low_px, close_px⟩

/-- The batch of canonical rows built by `insert_stock_prices`. -/
def stockRows (tz : Int) (records : List StockRec) : List ContRow :=
  records.filterMap (stockRow tz)

/-! ## Upsert semantics of the `continuous_prices` writer

Both writers issue
`INSERT ... ON CONFLICT (trade_date, symbol) DO UPDATE SET open = .., high = .., low = .., close = ..`.
The table is embedded as a row list; one `VALUES` row either updates the
conflicting row's O/H/L/C in place (all other columns — here the natural
key itself — untouched) or appends a fresh row. -/

/-- Natural key of `continuous_prices`: `(trade_date, symbol)`. -/
def contKey (r : ContRow) : Int × String := (r.trade_date, r.symbol)

/-- Effect of one `VALUES` row under
`ON CONFLICT (trade_date, symbol) DO UPDATE SET open/high/low/close = EXCLUDED.*`. -/
def upsertContRow (t : List ContRow) (r : ContRow) : List ContRow :=
  if contKey r ∈ t.map contKey then
    t.map (fun x =>
      if contKey x = contKey r then
        { x with openPx := r.openPx, highPx := r.highPx,
                 lowPx := r.lowPx, closePx := r.closePx }
      else x)
  else t ++ [r]

/-- Effect of the whole bulk-insert statement on the table. -/
def upsertCont (t : List ContRow) (batch : List ContRow) : List ContRow :=
  batch.foldl upsertContRow t

/-- The writer `insert_futures_prices(conn, records, root_to_db)`: normalize, then
upsert; returns the new table state and the returned count `len(rows)`. -/
def insert_futures_prices (table : List ContRow) (records : List FutRec)
    (root_to_db : List (String × String)) (tz : Int) : List ContRow × Nat :=
  if records = [] then (table, 0)
  else
    let rows := futuresRows root_to_db tz records
    if rows = [] then (table, 0)
    else (upsertCont table rows, rows.length)

/-- The writer `insert_stock_prices(conn, records)`. -/
def insert_stock_prices (table : List ContRow) (records : List StockRec)
    (tz : Int) : List ContRow × Nat :=
  if records = [] then (table, 0)
  else
    let rows := stockRows tz records
    if rows = [] then (table, 0)
    else (upsertCont table rows, rows.length)

/-- The function `ensure_assets_exist`: `INSERT ... ON CONFLICT (symbol) DO NOTHING`
per symbol; the assets table is embedded as its symbol list. -/
def ensure_assets_exist (assets : List String) (symbols : List String) : List String :=
  symbols.foldl (fun a s => if s ∈ a then a else a ++ [s]) assets

/-! ## Static configuration tables of `databento_data.py` -/

/-- The table `FUTURES_ROOTS`: Databento root → DB symbol (identity mapping on all
listed roots). -/
def FUTURES_ROOTS : List (String × String) :=
  [("ES", "ES"), ("NQ", "NQ"), ("YM", "YM"), ("RTY", "RTY"),
   ("CL", "CL"), ("NG", "NG"), ("RB", "RB"), ("HO", "HO"),
   ("GC", "GC"), ("SI", "SI"), ("HG", "HG"), ("PL", "PL"), ("PA", "PA"), ("ALI", "ALI"),
   ("ZC", "ZC"), ("ZS", "ZS"), ("ZW", "ZW"), ("KE", "KE"),
   ("ZM", "ZM"), ("ZL", "ZL"), ("ZO", "ZO"), ("ZR", "ZR"),
   ("LE", "LE"), ("HE", "HE"), ("GF", "GF"),
   ("6E", "6E"), ("6J", "6J"), ("6A", "6A"), ("6B", "6B"),
   ("6C", "6C"), ("6S", "6S"), ("6N", "6N"), ("6M", "6M"),
   ("ZB", "ZB"), ("ZN", "ZN"), ("ZF", "ZF"), ("ZT", "ZT"), ("ZQ", "ZQ"),
   ("SR3", "SR3"), ("SR1", "SR1"),
   ("DC", "DC"), ("GNF", "GNF"), ("CB", "CB"), ("CSC", "CSC"),
   ("BTC", "BTC"), ("ETH", "ETH"), ("LBR", "LBR")]

/-- The table `ICE_FUTURES_ROOTS`: every entry is commented out in the source. -/
def ICE_FUTURES_ROOTS : List (String × String) := []

/-- The list `STOCK_SYMBOLS`. -/
def STOCK_SYMBOLS : List String :=
  ["SPY", "QQQ", "IWM", "DIA",
   "AAPL", "MSFT", "GOOGL", "AMZN", "NVDA", "META", "TSLA", "BRKB",
   "AMD", "INTC", "CRM", "ORCL", "ADBE", "CSCO", "AVGO", "TXN",
   "JPM", "BAC", "WFC", "GS", "MS", "V", "MA", "AXP",
   "UNH", "JNJ", "PFE", "MRK", "ABBV", "LLY", "TMO", "ABT",
   "WMT", "HD", "MCD", "NKE", "SBUX", "TGT", "COST", "LOW",
   "XOM", "CVX", "COP", "SLB", "EOG", "MPC", "PSX", "VLO",
   "CAT", "DE", "BA", "GE", "HON", "UPS", "RTX", "LMT"]

/-! ## The `run` orchestrator of `databento_data.py` -/

/-- Database state touched by the vendor-API run: the assets table
(symbol list) and the `continuous_prices` table.  The mrci historical
table is never referenced by this pipeline. -/
structure Db where
  assets : List String
  continuous : List ContRow
deriving Repr, DecidableEq

/-- Observable per-source reporting of `run` (the print statements that
carry data): the dry-run "would insert N" count, the dry-run sample
stock record, and the inserted count. -/
inductive Report where
  | wouldInsert (source : String) (n : Nat)
  | sampleStock (r : StockRec)
  | insertedCount (source : String) (n : Nat)
deriving Repr, DecidableEq

/-- The orchestrator `run(start_date, end_date, dry_run, futures_only, stocks_only)` of
`databento_data.py`, with the external fetches supplied as inputs
(`cme_records`, `ice_records`, `stock_records`) and the date arguments
dropped (they only parameterize the fetches).  Returns the final
database state and the data-bearing reports in order. -/
def run (dry_run futures_only stocks_only : Bool) (tz : Int)
    (cme_records ice_records : List FutRec) (stock_records : List StockRec)
    (db : Db) : Db × List Report :=
  let fetch_futures := !stocks_only
  let fetch_stocks := !futures_only && decide (0 < STOCK_SYMBOLS.length)
  let futuresPhase :=
    if fetch_futures then
      let db1 :=
        if !dry_run then
          { db with assets := ensure_assets_exist db.assets ((FUTURES_ROOTS.map Prod.snd).dedup) }
        else db
      let cmePhase :=
        if dry_run then (db1, [Report.wouldInsert "CME" cme_records.length])
        else if cme_records ≠ [] then
          let res := insert_futures_prices db1.continuous cme_records FUTURES_ROOTS tz
          ({ db1 with continuous := res.1 }, [Report.insertedCount "CME" res.2])
        else (db1, ([] : List Report))
      if ICE_FUTURES_ROOTS ≠ [] then
        let db2 :=
          if !dry_run then
            { cmePhase.1 with
              assets := ensure_assets_exist cmePhase.1.assets ((ICE_FUTURES_ROOTS.map Prod.snd).dedup) }
          else cmePhase.1
        if dry_run then (db2, cmePhase.2 ++ [Report.wouldInsert "ICE" ice_records.length])
        else if ice_records ≠ [] then
          let res := insert_futures_prices db2.continuous ice_records ICE_FUTURES_ROOTS tz
          ({ db2 with continuous := res.1 }, cmePhase.2 ++ [Report.insertedCount "ICE" res.2])
        else (db2, cmePhase.2)
      else cmePhase
    else (db, ([] : List Report))
  if fetch_stocks then
    let db3 :=
      if !dry_run then
        { futuresPhase.1 with
          assets := ensure_assets_exist futuresPhase.1.assets
            (STOCK_SYMBOLS.map (fun s => stockTag ++ s)) }
      else futuresPhase.1
    if dry_run then
      (db3, futuresPhase.2 ++ [Report.wouldInsert "STOCKS" stock_records.length] ++
        (match stock_records with
         | [] => []
         | r :: _ => [Report.sampleStock r]))
    else if stock_records ≠ [] then
      let res := insert_stock_prices db3.continuous stock_records tz
      ({ db3 with continuous := res.1 }, futuresPhase.2 ++ [Report.insertedCount "STOCKS" res.2])
    else (db3, futuresPhase.2)
  else futuresPhase

/-- O/H/L/C projection of a continuous row (the columns overwritten by
the conflict clause). -/
def ohlc (r : ContRow) : ℚ × ℚ × ℚ × ℚ := (r.openPx, r.highPx, r.lowPx, r.closePx)

/-! ## MRCI scrape pipeline (`mrci_data.py`)

The BeautifulSoup layer is an external collaborator: a page is embedded
as `Option (List Tr)` — `none` when `soup.find("table", class_="strat")`
finds no table, otherwise the list of `tr` elements, each either a
section header (a `tr` containing a `th.note1`, carrying its text) or a
data row (carrying the `get_text()` of each `td`). -/

/-- A civil calendar date as carried by the mrci rows (a Python `date`). -/
structure MDate where
  year : Nat
  month : Nat
  day : Nat
deriving Repr, DecidableEq

/-- Gregorian leap year. -/
def isLeap (y : Nat) : Bool := y % 4 = 0 && (y % 100 ≠ 0 || y % 400 = 0)

/-- Number of days of month `m` of year `y` (0 for an invalid month). -/
def daysInMonth (y m : Nat) : Nat :=
  if m = 1 ∨ m = 3 ∨ m = 5 ∨ m = 7 ∨ m = 8 ∨ m = 10 ∨ m = 12 then 31
  else if m = 4 ∨ m = 6 ∨ m = 9 ∨ m = 11 then 30
  else if m = 2 then (if isLeap y then 29 else 28)
  else 0

/-- Validity of a civil date, as enforced by
`datetime.strptime(..., "%Y%m%d")`. -/
def validDate (y m d : Nat) : Bool :=
  1 ≤ m && m ≤ 12 && 1 ≤ d && d ≤ daysInMonth y m

deriving instance DecidableEq for Except

/-- Stable insertion of a string into a sorted list (used to model
Python `sorted`). -/
def insertSorted (s : String) : List String → List String
  | [] => [s]
  | x :: xs => if s ≤ x then s :: x :: xs else x :: insertSorted s xs

/-- Python `sorted` on a string list. -/
def sortStrings (l : List String) : List String := l.foldr insertSorted []

/-- Python `str.strip()` on the character list: drop leading and
trailing whitespace. -/
def stripChars (cs : List Char) : List Char :=
  ((cs.dropWhile Char.isWhitespace).reverse.dropWhile Char.isWhitespace).reverse

/-- Python `str.strip()`. -/
def stripStr (s : String) : String := String.mk (stripChars s.data)

/-- Python `str.lower()` restricted to ASCII (the scraped cells are
ASCII). -/
def lowerChar (c : Char) : Char :=
  if 65 ≤ c.toNat && c.toNat ≤ 90 then Char.ofNat (c.toNat + 32) else c

/-- Python `str.lower()`. -/
def lowerStr (s : String) : String := String.mk (s.data.map lowerChar)

/-- Python `s.startswith(pre)`. -/
def startsWithStr (pre s : String) : Bool := pre.data.isPrefixOf s.data

/-- Python `str.split()` (split on whitespace runs, dropping empties). -/
def words : List Char → List Char → List (List Char)
  | [], acc => if acc = [] then [] else [acc.reverse]
  | c :: cs, acc =>
    if c.isWhitespace then
      (if acc = [] then words cs [] else acc.reverse :: words cs [])
    else words cs (c :: acc)

/-- Python `" ".join(ws)`. -/
def joinWords : List (List Char) → List Char
  | [] => []
  | [w] => w
  | w :: ws => w ++ ' ' :: joinWords ws

/-- Numeric value of a decimal digit character. -/
def digitVal (c : Char) : Nat := c.toNat - 48

/-- Value of a big-endian digit-character list. -/
def digitsToNat (cs : List Char) : Nat := cs.foldl (fun n c => 10 * n + digitVal c) 0

/-- Value of a fractional digit-character list (the part after `.`). -/
def digitsFrac (cs : List Char) : ℚ := (digitsToNat cs : ℚ) / (10 : ℚ) ^ cs.length

/-- Core of Python `float(x)` on an already-stripped string, restricted
to the plain decimal grammar `digits [. digits]` with at least one digit
(the scientific/infinity forms never occur in the scraped cells):
`none` models the `ValueError` branch. -/
def parseUnsignedDecimal (cs : List Char) : Option ℚ :=
  let intPart := cs.takeWhile (·.isDigit)
  let rest := cs.dropWhile (·.isDigit)
  match rest with
  | [] => if intPart = [] then none else some (digitsToNat intPart)
  | '.' :: frac =>
    if frac.all (·.isDigit) && (intPart ≠ [] || frac ≠ []) then
      some ((digitsToNat intPart : ℚ) + digitsFrac frac)
    else none
  | _ => none

/-- Python `float(x)` with an optional sign. -/
def parseDecimal (cs : List Char) : Option ℚ :=
  match cs with
  | '-' :: rest => (parseUnsignedDecimal rest).map (fun q => -q)
  | '+' :: rest => parseUnsignedDecimal rest
  | cs => parseUnsignedDecimal cs

/-- Python `int(x)` on an already-stripped string (optional sign, digits
only): `none` models the `ValueError` branch. -/
def parseIntChars (cs : List Char) : Option Int :=
  match cs with
  | '-' :: ds => if ds ≠ [] && ds.all (·.isDigit) then some (-(digitsToNat ds : Int)) else none
  | '+' :: ds => if ds ≠ [] && ds.all (·.isDigit) then some ((digitsToNat ds : Int)) else none
  | ds => if ds ≠ [] && ds.all (·.isDigit) then some ((digitsToNat ds : Int)) else none

/-- Python `x.replace(",", "").strip()`, the cell cleanup shared by `to_float`
and `to_int`. -/
def cleanNum (x : String) : List Char :=
  stripChars (x.data.filter (fun c => c ≠ ','))

/-- The helper `to_float` from `parse_html`: strip commas and whitespace, map the
empty/dash/nbsp placeholders to SQL NULL (`ok none`), otherwise coerce —
`error ()` models the `ValueError` caught by the surrounding `try`. -/
def to_float (x : String) : Except Unit (Option ℚ) :=
  let cs := cleanNum x
  if cs = [] || cs = ['-'] || cs = "&nbsp;".data then .ok none
  else
    match parseDecimal cs with
    | some q => .ok (some q)
    | none => .error ()

/-- The helper `to_int` from `parse_html`. -/
def to_int (x : String) : Except Unit (Option Int) :=
  let cs := cleanNum x
  if cs = [] || cs = ['-'] || cs = "&nbsp;".data then .ok none
  else
    match parseIntChars cs with
    | some n => .ok (some n)
    | none => .error ()

/-- The core of `parse_yymmdd` after its initial `strip()`: require exactly six
digits (`re.fullmatch(r"\d{6}", x)`), pivot the two-digit year at 70,
and validate via `strptime` (`none` on any failure). -/
def parse_yymmdd_core (x : String) : Option MDate :=
  match x.data with
  | [c1, c2, c3, c4, c5, c6] =>
    if c1.isDigit && c2.isDigit && c3.isDigit && c4.isDigit && c5.isDigit && c6.isDigit then
      let yy := 10 * digitVal c1 + digitVal c2
      let yyyy := if 70 ≤ yy then 1900 + yy else 2000 + yy
      let mm := 10 * digitVal c3 + digitVal c4
      let dd := 10 * digitVal c5 + digitVal c6
      if validDate yyyy mm dd then some ⟨yyyy, mm, dd⟩ else none
    else none
  | _ => none

/-- The helper `parse_yymmdd` from `parse_html` (initial `strip()` then the core). -/
def parse_yymmdd (x : String) : Option MDate := parse_yymmdd_core (stripStr x)

/-- The table `NAME_TO_ROOT` from `parse_html`. -/
def NAME_TO_ROOT : List (String × String) :=
  [("Soybeans(CBOT)", "S"), ("Soybean Meal(CBOT)", "SM"), ("Soybean Oil(CBOT)", "BO"),
   ("Corn(CBOT)", "C"), ("Wheat(CBOT)", "W"), ("Wheat(KCBT)", "KW"), ("Wheat(MGE)", "MW"),
   ("Oats(CBOT)", "O"), ("Rough Rice(CBOT)", "RR"),
   ("Live Cattle(CME)", "LC"), ("Feeder Cattle(CME)", "FC"), ("Lean Hogs(CME)", "LH"),
   ("Pork Bellies(CME)", "PB"), ("Class III Milk(CME)", "DA"),
   ("Cocoa(ICE)", "CC"), ("Coffee \"C\"(ICE)", "KC"), ("Sugar #11(ICE)", "SB"),
   ("Cotton(ICE)", "CT"), ("Orange Juice(ICE)", "OJ"),
   ("Canola(WCE)", "RS"), ("London Cocoa(LCE)", "LCC"), ("London Sugar(LCE)", "LSU")]

/-- Python `" ".join(text.split())`: collapse runs of whitespace (the header
name normalization applied to `th.note1` text). -/
def normalizeWs (s : String) : String :=
  String.mk (joinWords (words s.data []))

/-- One `tr` of the `table.strat` element. -/
inductive Tr where
  | header (name : String)
  | dataRow (tds : List String)
deriving Repr, DecidableEq

/-- One row of `mrci_contract_prices` as built by `parse_html`
(`(asset_id, d_row, o, h, l, c, vol, oi, mth)`). -/
structure MrciRow where
  asset_id : Int
  trade_date : MDate
  openPx : Option ℚ
  highPx : Option ℚ
  lowPx : Option ℚ
  closePx : Option ℚ
  volume : Option Int
  open_interest : Option Int
  contract_code : String
deriving Repr, DecidableEq

/-- The `stats` mapping returned by `parse_html` (`unknown_sections` as
a duplicate-free list, sorted at the end as in the source). -/
structure Stats where
  had_pre : Bool
  had_table : Bool
  lines_scanned : Nat
  rows_parsed : Nat
  rows_unknown_root : Nat
  rows_bad_format : Nat
  unknown_sections : List String
deriving Repr, DecidableEq

/-- Loop state of `parse_html`: accumulated rows and stats plus the
`current_root` section register. -/
structure PState where
  rows : List MrciRow
  stats : Stats
  current_root : Option String
deriving Repr, DecidableEq

/-- Initial stats (`had_pre` is vestigial and never set). -/
def initStats (had_table : Bool) : Stats := ⟨false, had_table, 0, 0, 0, 0, []⟩

/-- The numeric fields extracted by the `try` block of a data row. -/
structure RowNums where
  o : Option ℚ
  h : Option ℚ
  l : Option ℚ
  c : Option ℚ
  vol : Option Int
  oi : Option Int
deriving Repr, DecidableEq

/-- The numeric-parsing portion of the `try` block of a data row: o/h/l/c
via `to_float` on cells 2–5, volume via `to_int` on cell 7, open interest
via `to_int` on cell 8 when present; the first failure aborts the row. -/
def rowNumeric (tds : List String) : Except Unit RowNums := do
  let o ← to_float (tds.getD 2 "")
  let h ← to_float (tds.getD 3 "")
  let l ← to_float (tds.getD 4 "")
  let c ← to_float (tds.getD 5 "")
  let vol ← to_int (tds.getD 7 "")
  let oi ← if 8 < tds.length then to_int (tds.getD 8 "") else Except.ok none
  return ⟨o, h, l, c, vol, oi⟩

/-- One iteration of the `tr` loop of `parse_html`. -/
def parseStep (asset_lookup : List (String × Int)) (d : MDate) (st : PState)
    (tr : Tr) : PState :=
  match tr with
  | .header name =>
    let name := normalizeWs name
    match List.lookup name NAME_TO_ROOT with
    | some root => { st with current_root := some root }
    | none =>
      { st with
        current_root := none,
        stats := { st.stats with unknown_sections :=
          if name ∈ st.stats.unknown_sections then st.stats.unknown_sections
          else st.stats.unknown_sections ++ [name] } }
  | .dataRow tds =>
    if tds = [] then st
    else if startsWithStr "total volume" (lowerStr (stripStr (tds.getD 0 ""))) then st
    else if tds.length < 8 then st
    else
      let st := { st with stats :=
        { st.stats with lines_scanned := st.stats.lines_scanned + 1 } }
      match st.current_root with
      | none =>
        { st with stats :=
          { st.stats with rows_unknown_root := st.stats.rows_unknown_root + 1 } }
      | some root =>
        match List.lookup root asset_lookup with
        | none =>
          { st with stats :=
            { st.stats with rows_unknown_root := st.stats.rows_unknown_root + 1 } }
        | some asset_id =>
          let mth := stripStr (tds.getD 0 "")
          let d_str := stripStr (tds.getD 1 "")
          let d_row := (parse_yymmdd d_str).getD d
          match rowNumeric tds with
          | .error _ =>
            { st with stats :=
              { st.stats with rows_bad_format := st.stats.rows_bad_format + 1 } }
          | .ok v =>
            { st with
              rows := st.rows ++ [⟨asset_id, d_row, v.o, v.h, v.l, v.c, v.vol, v.oi, mth⟩],
              stats := { st.stats with rows_parsed := st.stats.rows_parsed + 1 } }

/-- The parser `parse_html(html, d, asset_lookup)`: `none` for a page without a
`table.strat`; otherwise fold the `tr` loop and sort the unknown-section
set at the end. -/
def parse_html (table : Option (List Tr)) (d : MDate)
    (asset_lookup : List (String × Int)) : List MrciRow × Stats :=
  match table with
  | none => ([], initStats false)
  | some trs =>
    let fin := trs.foldl (parseStep asset_lookup d) ⟨[], initStats true, none⟩
    (fin.rows,
     { fin.stats with unknown_sections := sortStrings fin.stats.unknown_sections })

/-- Natural key of `mrci_contract_prices`:
`(asset_id, trade_date, contract_code)`. -/
def mrciKey (r : MrciRow) : Int × MDate × String :=
  (r.asset_id, r.trade_date, r.contract_code)

/-- Effect of one `VALUES` row of `insert_rows` under
`ON CONFLICT (asset_id, trade_date, contract_code) DO NOTHING`. -/
def insertMrciRow (t : List MrciRow) (r : MrciRow) : List MrciRow :=
  if mrciKey r ∈ t.map mrciKey then t else t ++ [r]

/-- The writer `insert_rows(cur, batch)`: bulk insert with DO NOTHING conflict
resolution; returns the new table and the `RETURNING 1` rowcount (the
number of rows actually inserted). -/
def insert_rows (t : List MrciRow) (batch : List MrciRow) : List MrciRow × Nat :=
  let fin := batch.foldl insertMrciRow t
  (fin, fin.length - t.length)

/-- Outcome of one day's attempt in the `while current <= end` loop of
`run` in `mrci_data.py`: a rendered page whose content contains
`"<html"` (with its parsed `table.strat`, if any), a blank page, or an
exception raised anywhere inside the per-day `try` block. -/
inductive DayOutcome where
  | page (table : Option (List Tr))
  | blank
  | fetchFailure
deriving Repr, DecidableEq

/-- State threaded through the scrape loop: the persisted checkpoint
(`scrape_log_mrci.last_date`) and the `mrci_contract_prices` table. -/
structure ScrapeState where
  checkpoint : MDate
  table : List MrciRow
deriving Repr, DecidableEq

/-- One iteration of the per-day loop: on a page with `"<html"` the day
is parsed and inserted and the checkpoint advanced; on a blank page or
any exception the checkpoint is still set to the current day
(`update_last_scraped(cur, current)` appears in all three branches). -/
def processDay (asset_lookup : List (String × Int)) (st : ScrapeState)
    (day : MDate) (oc : DayOutcome) : ScrapeState :=
  match oc with
  | .page tbl =>
    let res := parse_html tbl day asset_lookup
    let ins := insert_rows st.table res.1
    { checkpoint := day, table := ins.1 }
  | .blank => { st with checkpoint := day }
  | .fetchFailure => { st with checkpoint := day }

/-- The per-day loop over the (ascending) day sequence of a run, each day
paired with its outcome. -/
def scrapeDays (asset_lookup : List (String × Int)) (st : ScrapeState)
    (days : List (MDate × DayOutcome)) : ScrapeState :=
  days.foldl (fun s p => processDay asset_lookup s p.1 p.2) st

/-! ## Theorems -/

/-! ## Normalizer theorems -/

/-- C1: for every root and reference date (month 1..12), `get_active_contracts`
returns exactly 4 codes, and the i-th code is the root, the month letter of
calendar month `(month-1+i) mod 12` from the fixed alphabet F..Z, and the
2-digit year `year mod 100` when `month-1+i < 12` and `(year+1) mod 100`
otherwise. -/
theorem get_active_contracts_spec (root : String) (year month : Nat)
    (h1 : 1 ≤ month) (h2 : month ≤ 12) :
    (get_active_contracts root year month).length = 4 ∧
    ∀ i, i < 4 →
      (get_active_contracts root year month).getD i "" =
        root ++ month_codes.getD ((month - 1 + i) % 12) "" ++
          pad2 (if month - 1 + i < 12 then year % 100 else (year + 1) % 100) := by
  constructor
  · simp [get_active_contracts]
  · intro i hi
    have hy : (if month - 1 + i < 12 then year % 100 else (year % 100 + 1) % 100) =
        (if month - 1 + i < 12 then year % 100 else (year + 1) % 100) := by
      split <;> omega
    simp only [get_active_contracts, List.getD_eq_getElem?_getD, List.getElem?_map,
      List.getElem?_range, hi, dif_pos]
    simp [hy]

/-- Concrete instantiation of `get_active_contracts_spec` (root "ES",
reference date in November 2024). -/
theorem get_active_contracts_spec_witness :
    1 ≤ 11 ∧ 11 ≤ 12 ∧
    ((get_active_contracts "ES" 2024 11).length = 4 ∧
     ∀ i, i < 4 →
       (get_active_contracts "ES" 2024 11).getD i "" =
         "ES" ++ month_codes.getD ((11 - 1 + i) % 12) "" ++
           pad2 (if 11 - 1 + i < 12 then 2024 % 100 else (2024 + 1) % 100)) :=
  ⟨by decide, by decide, get_active_contracts_spec "ES" 2024 11 (by decide) (by decide)⟩
/-- C9: with `dry_run = true` the database state is returned unchanged —
no ensure-assets step runs and neither insert routine is applied for any
source — while the reports still carry the fetched record counts (and the
sample stock record when stock records were fetched). -/
theorem run_dry_run_no_writes (futures_only stocks_only : Bool) (tz : Int)
    (cme_records ice_records : List FutRec) (stock_records : List StockRec) (db : Db) :
    (run true futures_only stocks_only tz cme_records ice_records stock_records db).1 = db ∧
    (run true futures_only stocks_only tz cme_records ice_records stock_records db).2 =
      (if stocks_only then [] else [Report.wouldInsert "CME" cme_records.length]) ++
      (if futures_only then []
       else [Report.wouldInsert "STOCKS" stock_records.length] ++
         (match stock_records with
          | [] => []
          | r :: _ => [Report.sampleStock r])) := by
  have hice : ICE_FUTURES_ROOTS = [] := rfl
  cases futures_only <;> cases stocks_only <;>
    simp [run, hice, STOCK_SYMBOLS]


lemma fdiv_day_cancel (D tod : Int) (h1 : 0 ≤ tod) (h2 : tod < 86400) :
    Int.fdiv (D * 86400 + tod) 86400 = D := by
  rw [Int.fdiv_eq_ediv _ (by norm_num)]
  omega

/-- C3 counterexample: on a host at UTC offset −4h (tz = −14400 s), the
nanosecond-epoch and ISO-string representations of the instant
2024-11-01T00:00:00Z (epoch 1730419200 s) normalize to different trade
dates: `fromtimestamp` yields the local date 2024-10-31 (day 20027) while
the ISO path yields the written date 2024-11-01 (day 20028). -/
theorem trade_date_iso_epoch_counterexample :
    Int.fdiv (1730419200000000000 : Int) 1000000000 =
      daysFromCivil 2024 11 1 * 86400 + 0 - 0 ∧
    (futuresRow [("ES", "ES")] (-14400)
        ⟨"ES", .intNs 1730419200000000000, some 5800, some 5850, some 5790, some 5820,
          some 12345⟩).map ContRow.trade_date = some 20027 ∧
    (futuresRow [("ES", "ES")] (-14400)
        ⟨"ES", .isoStr ⟨2024, 11, 1, 0, 0⟩, some 5800, some 5850, some 5790, some 5820,
          some 12345⟩).map ContRow.trade_date = some 20028 := by
  refine ⟨by decide, ?_, ?_⟩ <;> decide

/-- C3 (amended): normalizing a record with a nanosecond-epoch `ts_event`
and with the ISO-8601 string (trailing `Z`) denoting the same instant
yields the same trade_date — in fact the same row — provided the
process-local UTC offset is zero; `datetime.fromtimestamp` interprets
the epoch in local time, so a non-zero local offset can shift the date
(see the counterexample).  `hinst` states that the two representations
denote the same instant. -/
theorem trade_date_iso_epoch_agree (root_to_db : List (String × String))
    (frec : FutRec) (srec : StockRec) (ts : IsoTs) (ns : Int)
    (hoff : ts.offset = 0) (h1 : 0 ≤ ts.tod) (h2 : ts.tod < 86400)
    (hinst : Int.fdiv ns 1000000000 =
      daysFromCivil ts.year ts.month ts.day * 86400 + ts.tod - ts.offset) :
    futuresRow root_to_db 0 { frec with ts_event := .intNs ns } =
      futuresRow root_to_db 0 { frec with ts_event := .isoStr ts } ∧
    stockRow 0 { srec with ts_event := .intNs ns } =
      stockRow 0 { srec with ts_event := .isoStr ts } := by
  have key : tsEventDate 0 (TsEvent.intNs ns) = tsEventDate 0 (TsEvent.isoStr ts) := by
    simp only [tsEventDate]
    rw [hinst, hoff, Int.sub_zero, Int.add_zero]
    exact fdiv_day_cancel _ _ h1 h2
  constructor
  · cases hl : List.lookup frec.root root_to_db with
    | none => simp [futuresRow, hl]
    | some s => simp [futuresRow, hl, key]
  · simp [stockRow, key]

/-- Concrete instantiation of `trade_date_iso_epoch_agree` at the instant
2024-11-01T00:00:00Z. -/
theorem trade_date_iso_epoch_agree_witness :
    (IsoTs.offset ⟨2024, 11, 1, 0, 0⟩ = 0) ∧
    (Int.fdiv 1730419200000000000 1000000000 =
      daysFromCivil 2024 11 1 * 86400 + 0 - 0) ∧
    (futuresRow [("ES", "ES")] 0
        { root := "ES", ts_event := .intNs 1730419200000000000, openPx := some 5800,
          highPx := some 5850, lowPx := some 5790, closePx := some 5820,
          volume := some 12345 } =
      futuresRow [("ES", "ES")] 0
        { root := "ES", ts_event := .isoStr ⟨2024, 11, 1, 0, 0⟩, openPx := some 5800,
          highPx := some 5850, lowPx := some 5790, closePx := some 5820,
          volume := some 12345 } ∧
     stockRow 0
        { symbol := "AAPL", ts_event := .intNs 1730419200000000000, openPx := some 180,
          highPx := some 181, lowPx := some 179, closePx := some 180, volume := none } =
      stockRow 0
        { symbol := "AAPL", ts_event := .isoStr ⟨2024, 11, 1, 0, 0⟩, openPx := some 180,
          highPx := some 181, lowPx := some 179, closePx := some 180, volume := none }) :=
  ⟨by decide, by decide,
    trade_date_iso_epoch_agree [("ES", "ES")]
      { root := "ES", ts_event := .isoStr ⟨2024, 11, 1, 0, 0⟩, openPx := some 5800,
        highPx := some 5850, lowPx := some 5790, closePx := some 5820,
        volume := some 12345 }
      { symbol := "AAPL", ts_event := .isoStr ⟨2024, 11, 1, 0, 0⟩, openPx := some 180,
        highPx := some 181, lowPx := some 179, closePx := some 180, volume := none }
      ⟨2024, 11, 1, 0, 0⟩ 1730419200000000000
      (by decide) (by decide) (by decide) (by decide)⟩

/-- C4: a record whose close is ≤ 0 — including a missing close, which
`rec.get('close', 0)` defaults to 0 — yields no canonical row in either
normalizer and contributes nothing to the batch, with no error raised
(both normalizers are total); `frec`/`srec` range over all three
timestamp representations since `ts_event` is arbitrary. -/
theorem close_nonpos_dropped (root_to_db : List (String × String)) (tz : Int)
    (frec : FutRec) (srec : StockRec)
    (hf : frec.closePx.getD 0 ≤ 0) (hs : srec.closePx.getD 0 ≤ 0) :
    futuresRow root_to_db tz frec = none ∧
    stockRow tz srec = none ∧
    (∀ pre post : List FutRec,
      futuresRows root_to_db tz (pre ++ frec :: post) =
        futuresRows root_to_db tz (pre ++ post)) ∧
    (∀ pre post : List StockRec,
      stockRows tz (pre ++ srec :: post) = stockRows tz (pre ++ post)) := by
  have h1 : futuresRow root_to_db tz frec = none := by
    cases hl : List.lookup frec.root root_to_db with
    | none => simp [futuresRow, hl]
    | some s =>
      simp only [futuresRow, hl]
      split
      · rfl
      · simp [hf]
  have h2 : stockRow tz srec = none := by
    simp only [stockRow]
    split
    · rfl
    · simp [hs]
  refine ⟨h1, h2, ?_, ?_⟩
  · intro pre post
    simp [futuresRows, List.filterMap_append, List.filterMap_cons, h1]
  · intro pre post
    simp [stockRows, List.filterMap_append, List.filterMap_cons, h2]

/-- Concrete instantiation of `close_nonpos_dropped`: a futures record
with a missing close and a stock record with close 0 are both dropped. -/
theorem close_nonpos_dropped_witness :
    ((FutRec.closePx ⟨"ES", .dateObj 20028, some 1, some 2, some 1, none, none⟩).getD 0 ≤ 0) ∧
    ((StockRec.closePx
        ⟨"AAPL", .intNs 1709251200000000000, some 1, some 2, some 1, some 0, none⟩).getD 0 ≤ 0) ∧
    (futuresRow [("ES", "ES")] 0 ⟨"ES", .dateObj 20028, some 1, some 2, some 1, none, none⟩ = none ∧
     stockRow 0 ⟨"AAPL", .intNs 1709251200000000000, some 1, some 2, some 1, some 0, none⟩ = none ∧
     (∀ pre post : List FutRec,
       futuresRows [("ES", "ES")] 0
           (pre ++ ⟨"ES", .dateObj 20028, some 1, some 2, some 1, none, none⟩ :: post) =
         futuresRows [("ES", "ES")] 0 (pre ++ post)) ∧
     (∀ pre post : List StockRec,
       stockRows 0
           (pre ++ ⟨"AAPL", .intNs 1709251200000000000, some 1, some 2, some 1, some 0, none⟩ :: post) =
         stockRows 0 (pre ++ post))) :=
  ⟨by decide, by decide,
    close_nonpos_dropped [("ES", "ES")] 0
      ⟨"ES", .dateObj 20028, some 1, some 2, some 1, none, none⟩
      ⟨"AAPL", .intNs 1709251200000000000, some 1, some 2, some 1, some 0, none⟩
      (by decide) (by decide)⟩

/-- C5: a futures record whose root is not in the static mapping yields
no row; a stock record with a non-empty ticker that does yield a row gets
the internal symbol `"STK" ++ ticker`. -/
theorem symbol_resolution (root_to_db : List (String × String)) (tz : Int)
    (frec : FutRec) (srec : StockRec)
    (hf : List.lookup frec.root root_to_db = none) (hs : srec.symbol ≠ "") :
    futuresRow root_to_db tz frec = none ∧
    ∀ r, stockRow tz srec = some r → r.symbol = "STK" ++ srec.symbol := by
  constructor
  · simp [futuresRow, hf]
  · intro r hr
    simp only [stockRow, if_neg hs] at hr
    split at hr
    · exact absurd hr (by simp)
    · cases hr
      rfl

/-- Concrete instantiation of `symbol_resolution`: an unmapped root "XYZ"
is dropped and the AAPL scenario resolves to "STKAAPL" (trade_date
2024-03-01, day 19783). -/
theorem symbol_resolution_witness :
    (List.lookup "XYZ" [("ES", "ES")] = none) ∧ ("AAPL" ≠ "") ∧
    (futuresRow [("ES", "ES")] 0
        ⟨"XYZ", .intNs 1709251200000000000, some 1, some 2, some 1, some 2, none⟩ = none ∧
     ∀ r, stockRow 0
        ⟨"AAPL", .intNs 1709251200000000000, some 179, some 181, some 178, some 180, none⟩ =
          some r → r.symbol = "STK" ++ "AAPL") ∧
    stockRow 0 ⟨"AAPL", .intNs 1709251200000000000, some 179, some 181, some 178, some 180, none⟩ =
      some ⟨19783, "STKAAPL", 179, 181, 178, 180⟩ :=
  ⟨by decide, by decide,
    symbol_resolution [("ES", "ES")] 0
      ⟨"XYZ", .intNs 1709251200000000000, some 1, some 2, some 1, some 2, none⟩
      ⟨"AAPL", .intNs 1709251200000000000, some 179, some 181, some 178, some 180, none⟩
      (by decide) (by decide),
    by decide⟩

/-- C8 counterexample: the canonical row built by `insert_futures_prices`
is the 6-tuple `(trade_date, symbol, open, high, low, close)` and does
not retain the record's volume: normalizing the ESZ24 record with volume
12345 gives exactly the same row as with the volume field absent, so no
canonical row "with volume 12345" exists. -/
theorem esz24_no_volume :
    futuresRow [("ES", "ES")] 0
        ⟨"ES", .isoStr ⟨2024, 11, 1, 0, 0⟩, some 5800, some 5850, some 5790, some 5820,
          some 12345⟩ =
      futuresRow [("ES", "ES")] 0
        ⟨"ES", .isoStr ⟨2024, 11, 1, 0, 0⟩, some 5800, some 5850, some 5790, some 5820,
          none⟩ ∧
    futuresRow [("ES", "ES")] 0
        ⟨"ES", .isoStr ⟨2024, 11, 1, 0, 0⟩, some 5800, some 5850, some 5790, some 5820,
          some 12345⟩ =
      some ⟨daysFromCivil 2024 11 1, "ES", 5800, 5850, 5790, 5820⟩ :=
  ⟨rfl, rfl⟩

/-- C8 (amended): the ESZ24 vendor record under the mapping ES→ES
normalizes to exactly one canonical row with symbol "ES", trade_date
2024-11-01 (day number 20028), open 5800, high 5850, low 5790 and close
5820; the record's volume is not part of the `continuous_prices` row. -/
theorem esz24_scenario :
    futuresRows [("ES", "ES")] 0
        [⟨"ES", .isoStr ⟨2024, 11, 1, 0, 0⟩, some 5800, some 5850, some 5790, some 5820,
          some 12345⟩] =
      [⟨daysFromCivil 2024 11 1, "ES", 5800, 5850, 5790, 5820⟩] ∧
    daysFromCivil 2024 11 1 = 20028 :=
  ⟨rfl, by decide⟩

/-! ## Upsert conflict semantics (C2) -/

lemma contKey_update (x r : ContRow) :
    contKey { x with openPx := r.openPx, highPx := r.highPx,
                     lowPx := r.lowPx, closePx := r.closePx } = contKey x := rfl

lemma upsertContRow_map_key_mem (t : List ContRow) (r : ContRow)
    (h : contKey r ∈ t.map contKey) :
    (upsertContRow t r).map contKey = t.map contKey := by
  simp only [upsertContRow, if_pos h, List.map_map]
  apply List.map_congr_left
  intro x _
  by_cases hx : contKey x = contKey r
  · simp [Function.comp, hx, contKey_update]
  · simp [Function.comp, hx]

lemma upsertContRow_map_key_notMem (t : List ContRow) (r : ContRow)
    (h : contKey r ∉ t.map contKey) :
    (upsertContRow t r).map contKey = t.map contKey ++ [contKey r] := by
  rw [upsertContRow, if_neg h]
  simp

lemma upsertContRow_nodup (t : List ContRow) (r : ContRow)
    (hnd : (t.map contKey).Nodup) :
    ((upsertContRow t r).map contKey).Nodup := by
  by_cases h : contKey r ∈ t.map contKey
  · rwa [upsertContRow_map_key_mem t r h]
  · rw [upsertContRow_map_key_notMem t r h]
    simp [List.nodup_append, hnd, h]

lemma upsertContRow_key_sub (t : List ContRow) (r : ContRow) :
    t.map contKey ⊆ (upsertContRow t r).map contKey := by
  by_cases h : contKey r ∈ t.map contKey
  · rw [upsertContRow_map_key_mem t r h]
    exact fun a ha => ha
  · rw [upsertContRow_map_key_notMem t r h]
    exact List.subset_append_left _ _

lemma upsertContRow_length_mem (t : List ContRow) (r : ContRow)
    (h : contKey r ∈ t.map contKey) :
    (upsertContRow t r).length = t.length := by
  rw [upsertContRow, if_pos h]
  simp

lemma filter_map_invariant {α : Type} (p : α → Bool) (f : α → α)
    (hp : ∀ x, p (f x) = p x) (hf : ∀ x, p x = true → f x = x) (l : List α) :
    (l.map f).filter p = l.filter p := by
  induction l with
  | nil => rfl
  | cons a l ih =>
    cases hpa : p a with
    | true => simp [List.filter_cons, hp, hpa, hf a hpa, ih]
    | false => simp [List.filter_cons, hp, hpa, ih]

lemma upsertContRow_filter_ne (t : List ContRow) (s : ContRow) (k : Int × String)
    (h : contKey s ≠ k) :
    (upsertContRow t s).filter (fun x => contKey x = k) =
      t.filter (fun x => contKey x = k) := by
  by_cases hm : contKey s ∈ t.map contKey
  · simp only [upsertContRow, if_pos hm]
    apply filter_map_invariant
    · intro x
      by_cases hx : contKey x = contKey s <;> simp [hx, contKey_update]
    · intro x hx
      have hxk : contKey x = k := by simpa using hx
      rw [if_neg]
      rw [hxk]
      exact fun e => h e.symm
  · simp only [upsertContRow, if_neg hm, List.filter_append]
    simp [h]

lemma filter_key_singleton (t : List ContRow) (k : Int × String)
    (hnd : (t.map contKey).Nodup) (hmem : k ∈ t.map contKey) :
    ∃ x, t.filter (fun y => contKey y = k) = [x] ∧ contKey x = k := by
  induction t with
  | nil => simp at hmem
  | cons a t ih =>
    simp only [List.map_cons, List.nodup_cons] at hnd
    obtain ⟨ha, hnd⟩ := hnd
    simp only [List.map_cons, List.mem_cons] at hmem
    by_cases hk : contKey a = k
    · refine ⟨a, ?_, hk⟩
      have hnil : t.filter (fun y => contKey y = k) = [] := by
        rw [List.filter_eq_nil_iff]
        intro y hy
        simp only [decide_eq_true_eq]
        intro hyk
        exact ha (hk ▸ hyk ▸ List.mem_map_of_mem contKey hy)
      simp [List.filter_cons, hk, hnil]
    · rcases hmem with h | h
      · exact absurd h.symm hk
      · obtain ⟨x, hx1, hx2⟩ := ih hnd h
        exact ⟨x, by simp [List.filter_cons, hk, hx1], hx2⟩

lemma upsertContRow_filter_self (t : List ContRow) (r : ContRow)
    (hnd : (t.map contKey).Nodup) (hmem : contKey r ∈ t.map contKey) :
    ((upsertContRow t r).filter (fun x => contKey x = contKey r)).map
        (fun x => (contKey x, ohlc x)) = [(contKey r, ohlc r)] := by
  obtain ⟨x₀, hx1, hx2⟩ := filter_key_singleton t (contKey r) hnd hmem
  simp only [upsertContRow, if_pos hmem]
  rw [List.filter_map, List.filter_congr, hx1]
  · simp only [List.map_map, List.map_cons, List.map_nil, Function.comp]
    rw [if_pos hx2]
    simp [contKey_update, hx2, ohlc]
  · intro x _
    by_cases hx : contKey x = contKey r <;> simp [hx, contKey_update]

lemma upsertCont_filter_frame (b : List ContRow) :
    ∀ (t : List ContRow) (k : Int × String), (∀ s ∈ b, contKey s ≠ k) →
      (upsertCont t b).filter (fun x => contKey x = k) =
        t.filter (fun x => contKey x = k) := by
  induction b with
  | nil => intro t k _; rfl
  | cons s b ih =>
    intro t k hb
    rw [show upsertCont t (s :: b) = upsertCont (upsertContRow t s) b from rfl,
      ih _ k (fun x hx => hb x (List.mem_cons_of_mem s hx)),
      upsertContRow_filter_ne t s k (hb s (List.mem_cons_self s b))]

lemma upsertCont_update_mem (b : List ContRow) :
    ∀ (t : List ContRow) (r : ContRow), (t.map contKey).Nodup →
      (b.map contKey).Nodup → r ∈ b → contKey r ∈ t.map contKey →
      ((upsertCont t b).filter (fun x => contKey x = contKey r)).map
          (fun x => (contKey x, ohlc x)) = [(contKey r, ohlc r)] := by
  induction b with
  | nil => intro t r _ _ hr _; simp at hr
  | cons s b ih =>
    intro t r hndt hndb hr hmem
    simp only [List.map_cons, List.nodup_cons] at hndb
    obtain ⟨hs, hndb⟩ := hndb
    rcases List.mem_cons.mp hr with rfl | hr'
    · rw [show upsertCont t (r :: b) = upsertCont (upsertContRow t r) b from rfl,
        upsertCont_filter_frame b (upsertContRow t r) (contKey r)
          (fun x hx e => hs (e ▸ List.mem_map_of_mem contKey hx)),
        upsertContRow_filter_self t r hndt hmem]
    · exact ih (upsertContRow t s) r (upsertContRow_nodup t s hndt) hndb hr'
        (upsertContRow_key_sub t s hmem)

lemma upsertCont_length (b : List ContRow) :
    ∀ t : List ContRow, (∀ r ∈ b, contKey r ∈ t.map contKey) →
      (upsertCont t b).length = t.length := by
  induction b with
  | nil => intro t _; rfl
  | cons s b ih =>
    intro t h
    rw [show upsertCont t (s :: b) = upsertCont (upsertContRow t s) b from rfl,
      ih _ (fun r hr => upsertContRow_key_sub t s (h r (List.mem_cons_of_mem s hr))),
      upsertContRow_length_mem t s (h s (List.mem_cons_self s b))]

lemma insertMrciRow_mem (t : List MrciRow) (r : MrciRow)
    (h : mrciKey r ∈ t.map mrciKey) : insertMrciRow t r = t := by
  simp [insertMrciRow, h]

lemma insert_rows_all_mem (b : List MrciRow) :
    ∀ t : List MrciRow, (∀ r ∈ b, mrciKey r ∈ t.map mrciKey) →
      insert_rows t b = (t, 0) := by
  have key : ∀ (b : List MrciRow) (t : List MrciRow),
      (∀ r ∈ b, mrciKey r ∈ t.map mrciKey) → b.foldl insertMrciRow t = t := by
    intro b
    induction b with
    | nil => intro t _; rfl
    | cons s b ih =>
      intro t h
      rw [List.foldl_cons, insertMrciRow_mem t s (h s (List.mem_cons_self s b)),
        ih t (fun r hr => h r (List.mem_cons_of_mem s hr))]
  intro t h
  simp [insert_rows, key b t h]

/-- C2 counterexample: `insert_rows` resolves conflicts with
`ON CONFLICT ... DO NOTHING`, so re-upserting the key
`(asset_id 1, 2024-12-20, "Z24")` with new O/H/L/C (close 21) leaves the
old row (close 11) in place — the surviving row does **not** carry the
newly supplied values, contrary to the claim's "overwrites on conflict"
for the historical writer. -/
theorem insert_rows_no_overwrite :
    insert_rows
        [⟨1, ⟨2024, 12, 20⟩, some 10, some 12, some 9, some 11, some 100, some 200, "Z24"⟩]
        [⟨1, ⟨2024, 12, 20⟩, some 20, some 22, some 19, some 21, some 300, some 400, "Z24"⟩] =
      ([⟨1, ⟨2024, 12, 20⟩, some 10, some 12, some 9, some 11, some 100, some 200, "Z24"⟩], 0) ∧
    (insert_rows
        [⟨1, ⟨2024, 12, 20⟩, some 10, some 12, some 9, some 11, some 100, some 200, "Z24"⟩]
        [⟨1, ⟨2024, 12, 20⟩, some 20, some 22, some 19, some 21, some 300, some 400, "Z24"⟩]).1.map
      MrciRow.closePx = [some 11] ∧ (some (11 : ℚ) ≠ some (21 : ℚ)) := by
  refine ⟨by decide, by decide, by decide⟩

/-- C2 (amended): for the continuous writer the conflict clause
overwrites O/H/L/C and leaves the key untouched, keeping exactly one row
under the key; for the historical writer (`insert_rows`) a conflicting
row leaves the table entirely unchanged (`DO NOTHING` — the newly
supplied values are discarded); for both writers, re-upserting a batch
of already-present keys leaves the row count unchanged (and `insert_rows`
reports 0 rows inserted). -/
theorem upsert_conflict_semantics :
    (∀ (t b : List ContRow) (r : ContRow),
      (t.map contKey).Nodup → (b.map contKey).Nodup → r ∈ b →
      contKey r ∈ t.map contKey →
      ((upsertCont t b).filter (fun x => contKey x = contKey r)).map
          (fun x => (contKey x, ohlc x)) = [(contKey r, ohlc r)]) ∧
    (∀ t b : List ContRow, (∀ r ∈ b, contKey r ∈ t.map contKey) →
      (upsertCont t b).length = t.length) ∧
    (∀ (t : List MrciRow) (r : MrciRow), mrciKey r ∈ t.map mrciKey →
      insertMrciRow t r = t) ∧
    (∀ t b : List MrciRow, (∀ r ∈ b, mrciKey r ∈ t.map mrciKey) →
      insert_rows t b = (t, 0)) :=
  ⟨fun t b r h1 h2 h3 h4 => upsertCont_update_mem b t r h1 h2 h3 h4,
   fun t b h => upsertCont_length b t h,
   insertMrciRow_mem,
   fun t b h => insert_rows_all_mem b t h⟩

/-- Concrete instantiation of `upsert_conflict_semantics`: a one-row
continuous table updated in place and a one-row historical table left
unchanged. -/
theorem upsert_conflict_semantics_witness :
    (((upsertCont [⟨20028, "ES", 1, 2, 3, 4⟩] [⟨20028, "ES", 5, 6, 7, 8⟩]).filter
        (fun x => contKey x = contKey ⟨20028, "ES", 5, 6, 7, 8⟩)).map
          (fun x => (contKey x, ohlc x)) =
        [(contKey ⟨20028, "ES", 5, 6, 7, 8⟩, ohlc ⟨20028, "ES", 5, 6, 7, 8⟩)]) ∧
    ((upsertCont [⟨20028, "ES", 1, 2, 3, 4⟩] [⟨20028, "ES", 5, 6, 7, 8⟩]).length =
      ([⟨20028, "ES", 1, 2, 3, 4⟩] : List ContRow).length) ∧
    (insertMrciRow
        [⟨1, ⟨2024, 12, 20⟩, some 10, none, none, some 11, none, none, "Z24"⟩]
        ⟨1, ⟨2024, 12, 20⟩, some 20, none, none, some 21, none, none, "Z24"⟩ =
      [⟨1, ⟨2024, 12, 20⟩, some 10, none, none, some 11, none, none, "Z24"⟩]) ∧
    (insert_rows
        [⟨1, ⟨2024, 12, 20⟩, some 10, none, none, some 11, none, none, "Z24"⟩]
        [⟨1, ⟨2024, 12, 20⟩, some 20, none, none, some 21, none, none, "Z24"⟩] =
      ([⟨1, ⟨2024, 12, 20⟩, some 10, none, none, some 11, none, none, "Z24"⟩], 0)) :=
  ⟨upsert_conflict_semantics.1 [⟨20028, "ES", 1, 2, 3, 4⟩] [⟨20028, "ES", 5, 6, 7, 8⟩]
      ⟨20028, "ES", 5, 6, 7, 8⟩ (by decide) (by decide) (by decide) (by decide),
   upsert_conflict_semantics.2.1 [⟨20028, "ES", 1, 2, 3, 4⟩] [⟨20028, "ES", 5, 6, 7, 8⟩]
      (by decide),
   upsert_conflict_semantics.2.2.1
      [⟨1, ⟨2024, 12, 20⟩, some 10, none, none, some 11, none, none, "Z24"⟩]
      ⟨1, ⟨2024, 12, 20⟩, some 20, none, none, some 21, none, none, "Z24"⟩ (by decide),
   upsert_conflict_semantics.2.2.2
      [⟨1, ⟨2024, 12, 20⟩, some 10, none, none, some 11, none, none, "Z24"⟩]
      [⟨1, ⟨2024, 12, 20⟩, some 20, none, none, some 21, none, none, "Z24"⟩] (by decide)⟩

/-! ## `parse_html` sectioning and error isolation (C6) -/

/-- C6: in `parse_html`, (a) a header row sets the section register to
the static name→root mapping of its normalized name and (b) data rows
never change it, so every data row is attributed to the most recent
header's root; (c) any row appended by a data-row step carries the
asset id of the current section's root; (d) a data row failing
numeric-format parsing bumps `rows_bad_format` and contributes no row;
(e) a data row whose section has no resolvable root (no current root, or
root absent from the asset lookup) bumps `rows_unknown_root` and
contributes no row; (f) an unmapped section name is recorded under
`unknown_sections`; (g) `parse_html` always returns a row list and a
stats mapping (it is total — no row raises). -/
theorem parse_html_sectioning (asset_lookup : List (String × Int)) (d : MDate) :
    (∀ (st : PState) (name : String),
      (parseStep asset_lookup d st (.header name)).current_root =
        List.lookup (normalizeWs name) NAME_TO_ROOT) ∧
    (∀ (st : PState) (tds : List String),
      (parseStep asset_lookup d st (.dataRow tds)).current_root = st.current_root) ∧
    (∀ (st : PState) (tds : List String) (r : MrciRow),
      (parseStep asset_lookup d st (.dataRow tds)).rows = st.rows ++ [r] →
      ∃ root, st.current_root = some root ∧
        List.lookup root asset_lookup = some r.asset_id) ∧
    (∀ (st : PState) (tds : List String) (root : String) (asset_id : Int),
      tds ≠ [] →
      startsWithStr "total volume" (lowerStr (stripStr (tds.getD 0 ""))) = false →
      ¬ tds.length < 8 → st.current_root = some root →
      List.lookup root asset_lookup = some asset_id →
      rowNumeric tds = .error () →
      (parseStep asset_lookup d st (.dataRow tds)).rows = st.rows ∧
      (parseStep asset_lookup d st (.dataRow tds)).stats.rows_bad_format =
        st.stats.rows_bad_format + 1) ∧
    (∀ (st : PState) (tds : List String),
      tds ≠ [] →
      startsWithStr "total volume" (lowerStr (stripStr (tds.getD 0 ""))) = false →
      ¬ tds.length < 8 →
      (st.current_root = none ∨
        ∃ root, st.current_root = some root ∧ List.lookup root asset_lookup = none) →
      (parseStep asset_lookup d st (.dataRow tds)).rows = st.rows ∧
      (parseStep asset_lookup d st (.dataRow tds)).stats.rows_unknown_root =
        st.stats.rows_unknown_root + 1) ∧
    (∀ (st : PState) (name : String),
      List.lookup (normalizeWs name) NAME_TO_ROOT = none →
      normalizeWs name ∈ (parseStep asset_lookup d st (.header name)).stats.unknown_sections) ∧
    (∀ table : Option (List Tr), ∃ rows stats,
      parse_html table d asset_lookup = (rows, stats)) := by
  refine ⟨?_, ?_, ?_, ?_, ?_, ?_, ?_⟩
  · intro st name
    simp only [parseStep]
    cases h : List.lookup (normalizeWs name) NAME_TO_ROOT <;> simp [h]
  · intro st tds
    simp only [parseStep]
    split
    · rfl
    split
    · rfl
    split
    · rfl
    cases hcr : st.current_root with
    | none => simp [hcr]
    | some root =>
      cases hlk : List.lookup root asset_lookup with
      | none => simp [hcr, hlk]
      | some aid =>
        cases hrn : rowNumeric tds with
        | error e => simp [hcr, hlk, hrn]
        | ok v => simp [hcr, hlk, hrn]
  · intro st tds r hrows
    simp only [parseStep] at hrows
    by_cases h1 : tds = []
    · rw [if_pos h1] at hrows
      simp at hrows
    rw [if_neg h1] at hrows
    by_cases h2 : startsWithStr "total volume" (lowerStr (stripStr (tds.getD 0 ""))) = true
    · rw [if_pos h2] at hrows
      simp at hrows
    rw [if_neg h2] at hrows
    by_cases h3 : tds.length < 8
    · rw [if_pos h3] at hrows
      simp at hrows
    rw [if_neg h3] at hrows
    cases hcr : st.current_root with
    | none =>
      rw [hcr] at hrows
      simp at hrows
    | some root =>
      rw [hcr] at hrows
      cases hlk : List.lookup root asset_lookup with
      | none => simp [hlk] at hrows
      | some aid =>
        cases hrn : rowNumeric tds with
        | error e => simp [hlk, hrn] at hrows
        | ok v =>
          simp only [hlk, hrn, List.append_cancel_left_eq, List.cons.injEq,
            and_true] at hrows
          refine ⟨root, rfl, ?_⟩
          rw [hlk, ← hrows]
  · intro st tds root aid h1 h2 h3 hcr hlk hbad
    constructor <;>
    · simp only [parseStep]
      rw [if_neg h1, if_neg (by rw [h2]; exact Bool.false_ne_true), if_neg h3]
      simp [hcr, hlk, hbad]
  · intro st tds h1 h2 h3 hroot
    rcases hroot with hcr | ⟨root, hcr, hlk⟩
    · constructor <;>
      · simp only [parseStep]
        rw [if_neg h1, if_neg (by rw [h2]; exact Bool.false_ne_true), if_neg h3]
        simp [hcr]
    · constructor <;>
      · simp only [parseStep]
        rw [if_neg h1, if_neg (by rw [h2]; exact Bool.false_ne_true), if_neg h3]
        simp [hcr, hlk]
  · intro st name hlk
    by_cases hmem : normalizeWs name ∈ st.stats.unknown_sections <;>
      simp [parseStep, hlk, hmem]
  · intro table
    exact ⟨_, _, rfl⟩

/-- Concrete instantiation of `parse_html_sectioning`: the Corn(CBOT)
scenario (header mapped to root "C", one 9-column data row), a
bad-format row, an unknown-root row, and an unmapped section name. -/
theorem parse_html_sectioning_witness :
    ((parseStep [("C", 7)] ⟨2024, 12, 20⟩ ⟨[], initStats true, none⟩
        (.header "Corn(CBOT)")).current_root =
      List.lookup (normalizeWs "Corn(CBOT)") NAME_TO_ROOT) ∧
    ((parseStep [("C", 7)] ⟨2024, 12, 20⟩ ⟨[], initStats true, some "C"⟩
        (.dataRow ["Mar24", "241220", "x", "2", "3", "4", "", "5", "6"])).rows = [] ∧
     (parseStep [("C", 7)] ⟨2024, 12, 20⟩ ⟨[], initStats true, some "C"⟩
        (.dataRow ["Mar24", "241220", "x", "2", "3", "4", "", "5", "6"])).stats.rows_bad_format =
       (initStats true).rows_bad_format + 1) ∧
    ((parseStep [("C", 7)] ⟨2024, 12, 20⟩ ⟨[], initStats true, none⟩
        (.dataRow ["Mar24", "241220", "1", "2", "3", "4", "", "5", "6"])).rows = [] ∧
     (parseStep [("C", 7)] ⟨2024, 12, 20⟩ ⟨[], initStats true, none⟩
        (.dataRow ["Mar24", "241220", "1", "2", "3", "4", "", "5", "6"])).stats.rows_unknown_root =
       (initStats true).rows_unknown_root + 1) ∧
    (normalizeWs "Mystery Widget(XXX)" ∈
      (parseStep [("C", 7)] ⟨2024, 12, 20⟩ ⟨[], initStats true, none⟩
        (.header "Mystery Widget(XXX)")).stats.unknown_sections) ∧
    parse_html (some [.header "Corn(CBOT)",
        .dataRow ["Mar24", "241220", "1", "2", "3", "4", "", "5", "6"]])
      ⟨2024, 12, 20⟩ [("C", 7)] =
      ([⟨7, ⟨2024, 12, 20⟩, some 1, some 2, some 3, some 4, some 5, some 6, "Mar24"⟩],
       ⟨false, true, 1, 1, 0, 0, []⟩) :=
  ⟨(parse_html_sectioning [("C", 7)] ⟨2024, 12, 20⟩).1 ⟨[], initStats true, none⟩ "Corn(CBOT)",
   (parse_html_sectioning [("C", 7)] ⟨2024, 12, 20⟩).2.2.2.1 ⟨[], initStats true, some "C"⟩
     ["Mar24", "241220", "x", "2", "3", "4", "", "5", "6"] "C" 7
     (by decide) (by decide) (by decide) rfl (by decide) (by decide),
   (parse_html_sectioning [("C", 7)] ⟨2024, 12, 20⟩).2.2.2.2.1 ⟨[], initStats true, none⟩
     ["Mar24", "241220", "1", "2", "3", "4", "", "5", "6"]
     (by decide) (by decide) (by decide) (Or.inl rfl),
   (parse_html_sectioning [("C", 7)] ⟨2024, 12, 20⟩).2.2.2.2.2.1 ⟨[], initStats true, none⟩
     "Mystery Widget(XXX)" (by decide),
   by decide⟩

/-! ## Date-cell parsing and fallback (C10) -/

lemma digitChar_isDigit {a : Nat} (h : a < 10) : (Nat.digitChar a).isDigit = true := by
  interval_cases a <;> decide

lemma digitVal_digitChar {a : Nat} (h : a < 10) : digitVal (Nat.digitChar a) = a := by
  interval_cases a <;> decide

/-- C10: the date cell is parsed as a 6-digit `yymmdd` string: on six
digits `ab cd ef` the year is pivoted at 70 (`yy ≥ 70 ↦ 1900+yy`,
`yy < 70 ↦ 2000+yy`) and the result is validated as a date; a string of
any other length, or with a non-digit, parses to `none`; `parse_yymmdd`
is the core after `strip()`; and any data row that `parse_html` appends
whose date cell fails parsing carries the page's calendar date `d`
instead of being rejected. -/
theorem parse_yymmdd_pivot (a b c e f g : Nat)
    (ha : a < 10) (hb : b < 10) (hc : c < 10) (he : e < 10) (hf : f < 10) (hg : g < 10) :
    (parse_yymmdd_core (String.mk [Nat.digitChar a, Nat.digitChar b, Nat.digitChar c,
        Nat.digitChar e, Nat.digitChar f, Nat.digitChar g]) =
      (if validDate (if 70 ≤ 10 * a + b then 1900 + (10 * a + b) else 2000 + (10 * a + b))
          (10 * c + e) (10 * f + g) then
        some ⟨(if 70 ≤ 10 * a + b then 1900 + (10 * a + b) else 2000 + (10 * a + b)),
              10 * c + e, 10 * f + g⟩
      else none)) ∧
    (∀ s : String, s.data.length ≠ 6 → parse_yymmdd_core s = none) ∧
    (∀ c1 c2 c3 c4 c5 c6 : Char,
      (c1.isDigit && c2.isDigit && c3.isDigit && c4.isDigit && c5.isDigit && c6.isDigit) =
        false →
      parse_yymmdd_core (String.mk [c1, c2, c3, c4, c5, c6]) = none) ∧
    (∀ s : String, parse_yymmdd s = parse_yymmdd_core (stripStr s)) ∧
    (∀ (al : List (String × Int)) (d : MDate) (st : PState) (tds : List String) (r : MrciRow),
      (parseStep al d st (.dataRow tds)).rows = st.rows ++ [r] →
      parse_yymmdd (stripStr (tds.getD 1 "")) = none →
      r.trade_date = d) := by
  refine ⟨?_, ?_, ?_, fun s => rfl, ?_⟩
  · simp only [parse_yymmdd_core, digitChar_isDigit ha, digitChar_isDigit hb,
      digitChar_isDigit hc, digitChar_isDigit he, digitChar_isDigit hf, digitChar_isDigit hg,
      digitVal_digitChar ha, digitVal_digitChar hb, digitVal_digitChar hc,
      digitVal_digitChar he, digitVal_digitChar hf, digitVal_digitChar hg,
      Bool.and_self, if_true]
  · intro s hlen
    rcases hs : s.data with _ | ⟨c1, _ | ⟨c2, _ | ⟨c3, _ | ⟨c4, _ | ⟨c5, _ | ⟨c6, _ | ⟨c7, rest⟩⟩⟩⟩⟩⟩⟩ <;>
      simp_all [parse_yymmdd_core]
  · intro c1 c2 c3 c4 c5 c6 hnd
    simp [parse_yymmdd_core, hnd]
  · intro al d st tds r hrows hdate
    simp only [parseStep] at hrows
    by_cases h1 : tds = []
    · rw [if_pos h1] at hrows
      simp at hrows
    rw [if_neg h1] at hrows
    by_cases h2 : startsWithStr "total volume" (lowerStr (stripStr (tds.getD 0 ""))) = true
    · rw [if_pos h2] at hrows
      simp at hrows
    rw [if_neg h2] at hrows
    by_cases h3 : tds.length < 8
    · rw [if_pos h3] at hrows
      simp at hrows
    rw [if_neg h3] at hrows
    cases hcr : st.current_root with
    | none =>
      rw [hcr] at hrows
      simp at hrows
    | some root =>
      rw [hcr] at hrows
      cases hlk : List.lookup root al with
      | none => simp [hlk] at hrows
      | some aid =>
        cases hrn : rowNumeric tds with
        | error err => simp [hlk, hrn] at hrows
        | ok v =>
          simp only [hlk, hrn, List.append_cancel_left_eq, List.cons.injEq,
            and_true] at hrows
          rw [← hrows]
          show (parse_yymmdd (stripStr (tds.getD 1 ""))).getD d = d
          rw [hdate]
          rfl

/-- Concrete instantiation of `parse_yymmdd_pivot`: "241220" parses to
2024-12-20 (pivot below 70), "700101" to 1970-01-01 (pivot at 70),
"691231" to 2069-12-31, "13-Jan" fails, and a data row with date cell
"13-Jan" is inserted with the page date 2024-12-20. -/
theorem parse_yymmdd_pivot_witness :
    (2 < 10 ∧ 4 < 10 ∧ 1 < 10 ∧ 0 < 10) ∧
    (parse_yymmdd_core (String.mk [Nat.digitChar 2, Nat.digitChar 4, Nat.digitChar 1,
        Nat.digitChar 2, Nat.digitChar 2, Nat.digitChar 0]) =
      (if validDate (if 70 ≤ 10 * 2 + 4 then 1900 + (10 * 2 + 4) else 2000 + (10 * 2 + 4))
          (10 * 1 + 2) (10 * 2 + 0) then
        some ⟨(if 70 ≤ 10 * 2 + 4 then 1900 + (10 * 2 + 4) else 2000 + (10 * 2 + 4)),
              10 * 1 + 2, 10 * 2 + 0⟩
      else none)) ∧
    parse_yymmdd "241220" = some ⟨2024, 12, 20⟩ ∧
    parse_yymmdd "700101" = some ⟨1970, 1, 1⟩ ∧
    parse_yymmdd "691231" = some ⟨2069, 12, 31⟩ ∧
    parse_yymmdd "13-Jan" = none ∧
    (parseStep [("C", 7)] ⟨2024, 12, 20⟩ ⟨[], initStats true, some "C"⟩
        (.dataRow ["Mar24", "13-Jan", "1", "2", "3", "4", "", "5", "6"])).rows =
      ([] : List MrciRow) ++
        [⟨7, ⟨2024, 12, 20⟩, some 1, some 2, some 3, some 4, some 5, some 6, "Mar24"⟩] ∧
    (⟨7, ⟨2024, 12, 20⟩, some 1, some 2, some 3, some 4, some 5, some 6,
        "Mar24"⟩ : MrciRow).trade_date = ⟨2024, 12, 20⟩ :=
  ⟨⟨by decide, by decide, by decide, by decide⟩,
   (parse_yymmdd_pivot 2 4 1 2 2 0 (by decide) (by decide) (by decide) (by decide)
     (by decide) (by decide)).1,
   by decide, by decide, by decide, by decide, by decide,
   (parse_yymmdd_pivot 2 4 1 2 2 0 (by decide) (by decide) (by decide) (by decide)
     (by decide) (by decide)).2.2.2.2 [("C", 7)] ⟨2024, 12, 20⟩
     ⟨[], initStats true, some "C"⟩
     ["Mar24", "13-Jan", "1", "2", "3", "4", "", "5", "6"]
     ⟨7, ⟨2024, 12, 20⟩, some 1, some 2, some 3, some 4, some 5, some 6, "Mar24"⟩
     (by decide) (by decide)⟩

/-! ## Scrape checkpoint (C7) -/

/-- C7: every iteration of the per-day scrape loop sets the persisted
checkpoint to the current day whatever the outcome (successful
parse-and-insert, blank page, or an exception inside the per-day `try`),
and after processing any prefix of a run the checkpoint equals the last
day processed — with the loop's ascending day order this means the
checkpoint is never rolled back within a run. -/
theorem checkpoint_forward_only (asset_lookup : List (String × Int)) :
    (∀ (st : ScrapeState) (day : MDate) (oc : DayOutcome),
      (processDay asset_lookup st day oc).checkpoint = day) ∧
    (∀ (st : ScrapeState) (ds : List (MDate × DayOutcome)) (day : MDate) (oc : DayOutcome),
      (scrapeDays asset_lookup st (ds ++ [(day, oc)])).checkpoint = day) := by
  have h : ∀ (st : ScrapeState) (day : MDate) (oc : DayOutcome),
      (processDay asset_lookup st day oc).checkpoint = day := by
    intro st day oc
    cases oc <;> rfl
  refine ⟨h, fun st ds day oc => ?_⟩
  rw [scrapeDays, List.foldl_append]
  exact h _ day oc

end Seasonality
